import Mathlib

/-!
Verification of the ne-danmaku core against its specification.

The definitions below are a shallow embedding of the Python sources:
* `nekocast_danmaku/danmaku/DanmakuClass/DanmakuMessage.py` (message model),
* `nekocast_danmaku/danmaku/DanmakuClass/DanmakuBuilder.py` (directive parsing),
* `nekocast_danmaku/danmaku/models.py` (blacklist, dedup, connection manager),
* `nekocast_danmaku/emoji/cache.py` (emoji cache).

Conventions of the embedding:
* Python `None` becomes `Option.none`; a Python attribute that may be absent
  (`getattr(m, "text", None)`) becomes an `Option`-valued accessor.
* Python truthiness of an optional string (`if message.senderId`) is modelled
  by `strTruthy`: both `None` and the empty string are falsy.
* A raised Python exception is modelled with `Except.error`; code that cannot
  raise returns plain values.
* Compiled regexes of the blacklist are abstracted as a pair of functions
  (`search`, `maskSub`); the two concrete regexes of the directive parser
  (`POSITION_RE`, `COLOR_RE`) are implemented character by character together
  with a faithful left-to-right non-overlapping `finditer`.
* WebSocket sessions are identified by natural numbers; Python dicts keyed by
  strings become association lists whose operations copy the dict semantics
  (update keeps the position of a key, a fresh key is appended at the end).
-/

set_option linter.unusedVariables false

namespace NeDanmaku

/-! ## Message model (`DanmakuMessage.py`) -/

/-- `position` field of `PlainDanmakuMessage`: `Literal["top", "bottom", "scroll"]`. -/
inductive Position where
  | top
  | bottom
  | scroll
deriving DecidableEq, Repr

/-- The four discriminated message variants with their own fields.
`plain` carries `text`, `color`, `size`, `position`; `emote` carries
`emote_url`; `superchat` carries `text`, `duration`, `cost`; `gift` carries
`gift_name`, `quantity`, `cost`. -/
inductive MsgVariant where
  | plain (text : String) (color : Option String) (size : Option Int) (position : Position)
  | emote (emoteUrl : String)
  | superchat (text : String) (duration : Int) (cost : Int)
  | gift (giftName : String) (quantity : Int) (cost : Int)
deriving DecidableEq, Repr

/-- A danmaku message: the common `DanmakuBase` fields plus the variant. -/
structure DanmakuMessage where
  senderId : Option String
  sender : Option String
  is_special : Bool
  variant : MsgVariant
deriving DecidableEq, Repr

/-- The `type` discriminator string of a message. -/
def DanmakuMessage.msgType (m : DanmakuMessage) : String :=
  match m.variant with
  | .plain _ _ _ _ => "plain"
  | .emote _ => "emote"
  | .superchat _ _ _ => "superchat"
  | .gift _ _ _ => "gift"

/-- `getattr(message, "text", None)`: the `text` attribute, when the variant has one. -/
def DanmakuMessage.text? (m : DanmakuMessage) : Option String :=
  match m.variant with
  | .plain t _ _ _ => some t
  | .superchat t _ _ => some t
  | .emote _ => none
  | .gift _ _ _ => none

/-- Assignment `message.sender = s`. -/
def DanmakuMessage.withSender (m : DanmakuMessage) (s : Option String) : DanmakuMessage :=
  { m with sender := s }

/-- Python truthiness of an optional string: `None` and `""` are falsy. -/
def strTruthy : Option String → Bool
  | none => false
  | some s => !(s == "")

/-! ## Blacklist service (`models.py`, `BlacklistService`) -/

/-- Abstraction of a compiled blacklist regex.  `search s` models
`pattern.search(s) is not None`; `maskSub s` models
`pattern.sub(lambda m: "*" * len(m.group(0)), s)`, the replacement of every
matched substring by asterisks of equal length. -/
structure Pattern where
  search : String → Bool
  maskSub : String → String

/-- State of `BlacklistService`: compiled patterns and the forbidden user ids. -/
structure BlacklistService where
  patterns : List Pattern
  forbiddenUsers : List String

/-- The sender-name rewriting loop of `BlacklistService.should_filter`:
for each pattern, if it matches the current sender name, the name is replaced
by its masked form. -/
def rewriteSenderLoop (patterns : List Pattern) (sender : String) : String :=
  patterns.foldl (fun s p => if p.search s then p.maskSub s else s) sender

/-- `BlacklistService.should_filter`, translated line by line.  The result is
the block verdict together with the (possibly sender-rewritten) message, since
the Python method mutates `message.sender` in place. -/
def BlacklistService.shouldFilter (svc : BlacklistService) (message : DanmakuMessage) :
    Bool × DanmakuMessage :=
  -- `if message.senderId and message.senderId in self._forbidden_users: return True`
  if strTruthy message.senderId &&
      svc.forbiddenUsers.contains (message.senderId.getD "") then
    (true, message)
  else
    -- `if message.type in ("superchat", "gift") and message.sender:` rewrite loop
    let message :=
      if (message.msgType == "superchat" || message.msgType == "gift") &&
          strTruthy message.sender then
        message.withSender (some (rewriteSenderLoop svc.patterns (message.sender.getD "")))
      else message
    -- `text = getattr(message, "text", None); if not text: return False`
    match message.text? with
    | none => (false, message)
    | some t =>
      if t == "" then (false, message)
      else (svc.patterns.any fun p => p.search t, message)

/-! Decision procedure transcribed from the words of the specification
(for the refinement claim C1): 1. `sender_id` in the forbidden set blocks;
2. a monetary message whose `sender_name` matches some pattern is rewritten and
not blocked; 3. a message whose `text` field matches some pattern is blocked;
4. otherwise pass. -/

/-- Spec step 1: the sender id is in the forbidden set. -/
def specSenderBlocked (svc : BlacklistService) (m : DanmakuMessage) : Bool :=
  match m.senderId with
  | some s => svc.forbiddenUsers.contains s
  | none => false

/-- Whether a message is monetary in the sense of the spec (`superchat` or `gift`). -/
def isMonetary (m : DanmakuMessage) : Bool :=
  m.msgType == "superchat" || m.msgType == "gift"

/-- Spec step 2: if the message is monetary and its sender name matches some
pattern, each matched substring of the sender name is masked. -/
def specRewritten (svc : BlacklistService) (m : DanmakuMessage) : DanmakuMessage :=
  if isMonetary m then
    match m.sender with
    | some s =>
      if svc.patterns.any (fun p => p.search s) then
        m.withSender (some (rewriteSenderLoop svc.patterns s))
      else m
    | none => m
  else m

/-- Spec step 3, as the claim states it: the message carries a `text` field
that matches some pattern. -/
def specTextBlocked (svc : BlacklistService) (m : DanmakuMessage) : Bool :=
  match m.text? with
  | some t => svc.patterns.any (fun p => p.search t)
  | none => false

/-- The blacklist decision exactly as claim C1 words it. -/
def blacklistSpec (svc : BlacklistService) (m : DanmakuMessage) : Bool × DanmakuMessage :=
  if specSenderBlocked svc m then (true, m)
  else
    let m := specRewritten svc m
    if specTextBlocked svc m then (true, m) else (false, m)

/-- Spec step 3 amended for Python truthiness: the `text` field must be
non-empty for the pattern check to block. -/
def specTextBlockedAmended (svc : BlacklistService) (m : DanmakuMessage) : Bool :=
  match m.text? with
  | some t => !(t == "") && svc.patterns.any (fun p => p.search t)
  | none => false

/-- The blacklist decision of claim C1, amended: an empty `text` field never
blocks (the code tests `if not text` before the pattern loop). -/
def blacklistSpecAmended (svc : BlacklistService) (m : DanmakuMessage) : Bool × DanmakuMessage :=
  if specSenderBlocked svc m then (true, m)
  else
    let m := specRewritten svc m
    if specTextBlockedAmended svc m then (true, m) else (false, m)

/-! ## Directive parser (`DanmakuBuilder.py`: `POSITION_RE`, `COLOR_RE`,
`parse_command`, and the plain branch of `DanmakuBuilder.create`) -/

/-- ASCII whitespace recognized by Python `\s` and `str.strip` (the source
inputs only ever contain plain spaces). -/
def isPySpace (c : Char) : Bool :=
  c == ' ' || c == '\t' || c == '\n' || c == '\r' || c == '\x0b' || c == '\x0c'

/-- Length of the maximal leading whitespace run (the greedy `\s+` suffix of
both directive regexes, and also used for `str.strip`). -/
def spaceRun : List Char → Nat
  | [] => 0
  | c :: rest => if isPySpace c then spaceRun rest + 1 else 0

/-- Python `str.strip()` on a character list. -/
def pyStrip (cs : List Char) : List Char :=
  ((cs.dropWhile isPySpace).reverse.dropWhile isPySpace).reverse

/-- A hexadecimal digit, `[0-9a-fA-F]`. -/
def isHexDigit (c : Char) : Bool :=
  (('0' ≤ c) && (c ≤ '9')) || (('a' ≤ c) && (c ≤ 'f')) || (('A' ≤ c) && (c ≤ 'F'))

/-- Match of `POSITION_RE = /(?:置顶|置底)\s+` at the head of the list:
returns the length of the (greedy) match, or `none`. -/
def matchPositionAt : List Char → Option Nat
  | '/' :: '置' :: '顶' :: rest =>
    let n := spaceRun rest
    if n == 0 then none else some (3 + n)
  | '/' :: '置' :: '底' :: rest =>
    let n := spaceRun rest
    if n == 0 then none else some (3 + n)
  | _ => none

/-- Match of `COLOR_RE = #[0-9a-fA-F]{3}(?:[0-9a-fA-F]{3})?\s+` at the head of
the list, with the backtracking of the greedy optional second hex triple:
six hex digits followed by whitespace are preferred, otherwise three. -/
def matchColorAt : List Char → Option Nat
  | '#' :: rest =>
    let h3 := rest.take 3
    if h3.length == 3 && h3.all isHexDigit then
      let rest3 := rest.drop 3
      let h6 := rest3.take 3
      let long :=
        if h6.length == 3 && h6.all isHexDigit then
          let n := spaceRun (rest3.drop 3)
          if n == 0 then none else some (1 + 6 + n)
        else none
      match long with
      | some k => some k
      | none =>
        let n := spaceRun rest3
        if n == 0 then none else some (1 + 3 + n)
    else none
  | _ => none

/-- `re.finditer`: scan left to right, yield non-overlapping matches, resume
after the end of each match.  `fuel` bounds the recursion (both matchers only
succeed with positive length, and the scan always advances by at least one
character). -/
def finditerAux (matchAt : List Char → Option Nat) :
    Nat → List Char → Nat → List (Nat × Nat)
  | 0, _, _ => []
  | _ + 1, [], _ => []
  | fuel + 1, c :: rest, i =>
    match matchAt (c :: rest) with
    | some n =>
      let step := max n 1
      (i, i + n) :: finditerAux matchAt fuel ((c :: rest).drop step) (i + step)
    | none => finditerAux matchAt fuel rest (i + 1)

/-- All spans `(start, stop)` of a matcher over a string, in scan order. -/
def finditer (matchAt : List Char → Option Nat) (s : List Char) : List (Nat × Nat) :=
  finditerAux matchAt s.length s 0

/-- The Python slice `s[a:b]` on a character list. -/
def pySlice (cs : List Char) (a b : Nat) : List Char :=
  (cs.drop a).take (b - a)

/-- Result of `parse_command`: either the `{"text": s}` dictionary (no tokens
found), or the full dictionary with the extracted `position` string, the
optional `color`, and the remaining text, or `None` (tokens in the interior). -/
inductive ParseResult where
  | bare (text : String)
  | directives (position : String) (color : Option String) (text : String)
  | invalid
deriving DecidableEq, Repr

/-- `parse_command(raw)`, translated line by line.  The token list is built
from all `POSITION_RE` matches followed by all `COLOR_RE` matches; successive
assignments in the extraction loop make the last match of each kind win. -/
def parse_command (raw : String) : ParseResult :=
  let s := raw.data
  let posSpans := finditer matchPositionAt s
  let colSpans := finditer matchColorAt s
  let spans := posSpans ++ colSpans
  match spans with
  | [] => .bare raw
  | sp0 :: rest =>
    let start := (sp0 :: rest).foldl (fun a sp => min a sp.1) sp0.1
    let stop := (sp0 :: rest).foldl (fun a sp => max a sp.2) sp0.2
    let stripped := pyStrip s
    let hull := pySlice s start stop
    let textCs? : Option (List Char) :=
      if hull.isPrefixOf stripped then some (s.drop stop)
      else if hull.isSuffixOf stripped then some (s.take start)
      else none
    match textCs? with
    | none => .invalid
    | some textCs =>
      let position :=
        match posSpans.getLast? with
        | none => "rtl"
        | some sp =>
          let tok := String.mk (pyStrip ((pySlice s sp.1 sp.2).drop 1))
          if tok == "置顶" then "top"
          else if tok == "置底" then "bottom"
          else tok
      let color :=
        colSpans.getLast?.map (fun sp => String.mk (pyStrip (pySlice s sp.1 sp.2)))
      .directives position color (String.mk textCs)

/-- Pydantic validation of the `position` field of `PlainDanmakuMessage`:
only the three literals are accepted, an absent key takes the default. -/
def validatePosition : Option String → Except String Position
  | none => .ok .scroll
  | some "top" => .ok .top
  | some "bottom" => .ok .bottom
  | some "scroll" => .ok .scroll
  | some _ => .error "ValidationError: position"

/-- The `plain` branch of `DanmakuBuilder.create`: join and strip the text,
run `parse_command`, fall back to `{"text": text}` on `None`, and construct a
`PlainDanmakuMessage` (whose `position` value is validated). -/
def createPlain (senderId sender : String) (joined : String) : Except String DanmakuMessage :=
  let text := String.mk (pyStrip joined.data)
  match parse_command text with
  | .bare t =>
    .ok { senderId := some senderId, sender := some sender, is_special := false,
          variant := .plain t none none .scroll }
  | .invalid =>
    .ok { senderId := some senderId, sender := some sender, is_special := false,
          variant := .plain text none none .scroll }
  | .directives pos color t =>
    match validatePosition (some pos) with
    | .ok p =>
      .ok { senderId := some senderId, sender := some sender, is_special := false,
            variant := .plain t color none p }
    | .error e => .error e

/-! ## Association lists with Python `dict` semantics

Python dicts preserve insertion order: assignment to an existing key keeps its
position, assignment to a fresh key appends it at the end, `del` removes the
key.  Keys are unique in a real dict; the well-formedness predicates below
record that. -/

/-- `d.get(k)` / `k in d` lookup. -/
def lookupA {β : Type} : List (String × β) → String → Option β
  | [], _ => none
  | p :: rest, k => if p.1 = k then some p.2 else lookupA rest k

/-- `d[k] = v`: update in place, or append a fresh key at the end. -/
def setA {β : Type} : List (String × β) → String → β → List (String × β)
  | [], k, v => [(k, v)]
  | p :: rest, k, v => if p.1 = k then (k, v) :: rest else p :: setA rest k v

/-- `del d[k]`: remove the key (the first occurrence). -/
def eraseA {β : Type} : List (String × β) → String → List (String × β)
  | [], _ => []
  | p :: rest, k => if p.1 = k then rest else p :: eraseA rest k

/-- Number of entries stored under a key. -/
def countA {β : Type} (l : List (String × β)) (k : String) : Nat :=
  (l.filter (fun p => p.1 == k)).length

/-! ## Dedup queue (`models.py`, `DedupQueue`) -/

/-- `DedupQueue._message_key`: the dedup / blacklist key of a message.
`message.text` is an unconditional attribute access, so a message without a
`text` field (emote, gift) raises `AttributeError`, modelled by
`Except.error`. -/
def DedupQueue.messageKey (message : DanmakuMessage) :
    Except String (Option String × String) :=
  if (message.msgType == "superchat" || message.msgType == "gift") &&
      strTruthy message.sender then
    match message.text? with
    | some t => .ok (message.sender, t)
    | none => .error "AttributeError: text"
  else
    match message.text? with
    | some t => .ok (none, t)
    | none => .error "AttributeError: text"

/-! ## Connection manager (`models.py`, `ConnectionManager`) -/

/-- Registry state of `ConnectionManager`: viewer sessions keyed by group,
plus the upstream sessions.  Sessions are identified by naturals; the Python
sets become duplicate-free lists. -/
structure CMState where
  clientConnections : List (String × List Nat)
  upstreamConnections : List Nat
deriving DecidableEq, Repr

/-- `connect_client` (after the `accept`): `client_connections[group].add(ws)`,
where the defaultdict creates a missing group. -/
def connectClient (st : CMState) (w : Nat) (group : String) : CMState :=
  let conns := (lookupA st.clientConnections group).getD []
  let conns := if conns.contains w then conns else conns ++ [w]
  { st with clientConnections := setA st.clientConnections group conns }

/-- `disconnect_client`: `discard` the session then delete the group when its
set became empty.  The defaultdict access on a missing group creates an empty
set that the `del` immediately removes again, so a missing group stays
missing. -/
def disconnectClient (st : CMState) (w : Nat) (group : String) : CMState :=
  let conns := (lookupA st.clientConnections group).getD []
  let conns := conns.erase w
  if conns.isEmpty then
    { st with clientConnections := eraseA st.clientConnections group }
  else
    { st with clientConnections := setA st.clientConnections group conns }

/-- `disconnect_all`: close and `clear()` every group set (the keys stay in
the dict), close and clear the upstream set. -/
def disconnectAll (st : CMState) : CMState :=
  { clientConnections := st.clientConnections.map (fun gp => (gp.1, ([] : List Nat))),
    upstreamConnections := [] }

/-- `message.text += "👑"` guarded by `message.is_special` in
`broadcast_to_group`: appends the crown for the variants that carry `text`,
raises `AttributeError` for the ones that do not. -/
def appendCrown (message : DanmakuMessage) : Except String DanmakuMessage :=
  if message.is_special then
    match message.variant with
    | .plain t c sz p => .ok { message with variant := .plain (t ++ "👑") c sz p }
    | .superchat t d c => .ok { message with variant := .superchat (t ++ "👑") d c }
    | .emote _ => .error "AttributeError: text"
    | .gift _ _ _ => .error "AttributeError: text"
  else .ok message

/-- `broadcast_to_group`, translated step by step.  The filter decision and
the sends are abstracted as function parameters: `filterFn` may raise (its
exception is NOT caught by the method and propagates), `sendOk` tells which
sessions accept the send.  On success the result is the new registry state,
the list of sessions that received the message, and the message as sent. -/
def broadcastToGroup (filterFn : String → DanmakuMessage → Except String Bool)
    (sendOk : Nat → Bool) (st : CMState) (group : String) (message : DanmakuMessage) :
    Except String (CMState × List Nat × DanmakuMessage) :=
  match lookupA st.clientConnections group with
  | none => .ok (st, [], message)
  | some conns =>
    match filterFn group message with
    | .error e => .error e
    | .ok true => .ok (st, [], message)
    | .ok false =>
      match appendCrown message with
      | .error e => .error e
      | .ok message =>
        let delivered := conns.filter sendOk
        let failed := conns.filter (fun w => !sendOk w)
        .ok (failed.foldl (fun s w => disconnectClient s w group) st, delivered, message)

/-- `broadcast_control`: same fan-out and failure collection, no filter and no
crown. -/
def broadcastControl (sendOk : Nat → Bool) (st : CMState) (group : String) :
    CMState × List Nat :=
  match lookupA st.clientConnections group with
  | none => (st, [])
  | some conns =>
    let delivered := conns.filter sendOk
    let failed := conns.filter (fun w => !sendOk w)
    (failed.foldl (fun s w => disconnectClient s w group) st, delivered)

/-- Outcome of one upstream danmaku packet in the `upstream_websocket` loop
(`routes.py`): either the broadcast finished and the loop continues, or an
exception was caught by the inner handler, logged, and answered with an error
frame — the loop continues in both cases. -/
inductive UpstreamOutcome where
  | delivered (st : CMState) (sessions : List Nat) (sent : DanmakuMessage)
  | errorFrame (st : CMState) (e : String)
deriving Repr

/-- The danmaku branch of the upstream loop: force `is_special = True`, then
broadcast; any exception is caught by the surrounding `except Exception`,
which logs and sends an error frame instead of delivering. -/
def handleUpstreamDanmaku (filterFn : String → DanmakuMessage → Except String Bool)
    (sendOk : Nat → Bool) (st : CMState) (group : String) (message : DanmakuMessage) :
    UpstreamOutcome :=
  let message := { message with is_special := true }
  match broadcastToGroup filterFn sendOk st group message with
  | .ok (st', delivered, sent) => .delivered st' delivered sent
  | .error e => .errorFrame st e

/-- The registry invariant of claim C6: every group present in the viewers map
has a non-empty session set. -/
def goodState (st : CMState) : Prop :=
  ∀ p ∈ st.clientConnections, p.2 ≠ []

/-- Well-formedness enjoyed by every state the Python code can reach: dict
keys are unique and each Python set holds no duplicates. -/
def wfState (st : CMState) : Prop :=
  (st.clientConnections.map Prod.fst).Nodup ∧
    ∀ p ∈ st.clientConnections, p.2.Nodup

/-! ## Emoji cache (`emoji/cache.py`) -/

/-- `TTL_SECONDS`. -/
def TTL_SECONDS : Nat := 600

/-- A cache entry: normalized bytes, content type, absolute expiry and last
access times.  Bytes are abstracted as strings, time as a natural. -/
structure CacheItem where
  data : String
  contentType : String
  expire : Nat
  lastAccess : Nat
deriving DecidableEq, Repr

/-- The emoji store (`self.store`), a dict from hex digest to entry. -/
structure EmojiCache where
  store : List (String × CacheItem)
deriving DecidableEq, Repr

/-- `EmojiCache.get`: miss on absence; an expired entry is deleted and
reported as a miss; a hit refreshes `last_access` and extends `expire`.
Returns the item seen by the caller together with the updated store. -/
def EmojiCache.getItem (now : Nat) (c : EmojiCache) (key : String) :
    Option CacheItem × EmojiCache :=
  match lookupA c.store key with
  | none => (none, c)
  | some item =>
    if item.expire < now then (none, ⟨eraseA c.store key⟩)
    else
      let item' := { item with lastAccess := now, expire := now + TTL_SECONDS }
      (some item', ⟨setA c.store key item'⟩)

/-- `EmojiCache.import_emoji_sync`: decode and re-encode the content (the PIL
pipeline is abstracted as `normalize`, which raises on undecodable bytes),
hash the normalized bytes (`md5` abstract), return the existing key on a cache
hit, otherwise insert.  The store is returned alongside, unchanged whenever
the function raises. -/
def importEmojiSync (normalize : String → Except String String) (md5 : String → String)
    (now : Nat) (c : EmojiCache) (content : String) :
    Except String String × EmojiCache :=
  match normalize content with
  | .error e => (.error e, c)
  | .ok contentResized =>
    let key := md5 contentResized
    match c.getItem now key with
    | (some _, c') => (.ok key, c')
    | (none, c') =>
      (.ok key, ⟨setA c'.store key ⟨contentResized, "image/webp", now + TTL_SECONDS, now⟩⟩)

/-- The download step of `load_emoji`: either an HTTP response with a status
and a body, or an exception inside the `try` block. -/
inductive DownloadResult where
  | resp (status : Nat) (content : String)
  | exc (e : String)

/-- `EmojiCache.load_emoji` after the semaphores: a download exception or a
non-200 status returns `None`; the decode of the body happens OUTSIDE the
`try` block, so its exception propagates to the caller. -/
def loadEmoji (normalize : String → Except String String) (md5 : String → String)
    (download : DownloadResult) (now : Nat) (c : EmojiCache) :
    Except String (Option String) × EmojiCache :=
  match download with
  | .exc _ => (.ok none, c)
  | .resp status content =>
    if status ≠ 200 then (.ok none, c)
    else
      match importEmojiSync normalize md5 now c content with
      | (.error e, c') => (.error e, c')
      | (.ok key, c') => (.ok (some key), c')

/-! ## Gift builder (`DanmakuBuilder.gift` and pydantic validation of
`GiftMessage`) -/

/-- The keyword arguments handed to the `GiftMessage` constructor: `none`
stands for a field that is not supplied. -/
structure GiftInit where
  senderId : Option (Option String)
  sender : Option (Option String)
  is_special : Option Bool
  gift_name : Option String
  quantity : Option Int
  cost : Option Int

/-- Pydantic validation of `GiftMessage`: `gift_name`, `quantity` and `cost`
are required fields without defaults, the base fields take their defaults when
absent.  A missing required field raises a `ValidationError`. -/
def validateGiftMessage (init : GiftInit) : Except String DanmakuMessage :=
  match init.gift_name, init.quantity, init.cost with
  | some gn, some q, some c =>
    .ok { senderId := (init.senderId.getD none),
          sender := (init.sender.getD none),
          is_special := init.is_special.getD false,
          variant := .gift gn q c }
  | _, _, _ => .error "ValidationError: gift_name, quantity"

/-- `DanmakuBuilder.gift(cost, senderId, sender, is_special)`: constructs
`GiftMessage(cost=cost, senderId=senderId, sender=sender,
is_special=is_special)` — `gift_name` and `quantity` are not supplied. -/
def DanmakuBuilder.gift (cost : Int) (senderId sender : Option String)
    (special : Bool) : Except String DanmakuMessage :=
  validateGiftMessage
    { senderId := some senderId, sender := some sender, is_special := some special,
      gift_name := none, quantity := none, cost := some cost }

/-! ## Concrete example values used by the concrete theorems -/

/-- A plain message `{"type": "plain", "text": "hi"}` from user `u1`. -/
def plainHi : DanmakuMessage :=
  ⟨some "u1", some "alice", false, .plain "hi" none none .scroll⟩

/-- A plain message whose `text` is the empty string (pydantic accepts it). -/
def plainEmptyText : DanmakuMessage :=
  ⟨none, none, false, .plain "" none none .scroll⟩

/-- An emote message: no `text` attribute. -/
def emoteMsg : DanmakuMessage :=
  ⟨some "u2", some "bob", false, .emote "http-src"⟩

/-- A gift message: monetary, no `text` attribute. -/
def giftMsg : DanmakuMessage :=
  ⟨some "u3", some "carol", false, .gift "flower" 1 0⟩

/-- A superchat message: monetary, carries `text`. -/
def scMsg : DanmakuMessage :=
  ⟨some "u4", some "dan", false, .superchat "thanks" 10 0⟩

/-- A compiled pattern that matches every string — the behaviour of the
regex `a*`, whose search succeeds on every input including the empty string.
Masking substitutes asterisks for the (possibly zero-width) matches; on the
strings of the concrete theorems only `search` is consulted. -/
def matchAllPattern : Pattern := ⟨fun _ => true, fun s => s⟩

/-- A one-group registry: session `1` watches channel `"a"`. -/
def oneViewerState : CMState := ⟨[("a", [1])], []⟩

/-! ## Helper lemmas -/

theorem lookupA_setA_self {β : Type} (l : List (String × β)) (k : String) (v : β) :
    lookupA (setA l k v) k = some v := by
  induction l with
  | nil => simp [setA, lookupA]
  | cons p rest ih =>
    by_cases h : p.1 = k
    · simp [setA, h, lookupA]
    · simp [setA, h, lookupA, ih]

theorem mem_setA {β : Type} {l : List (String × β)} {k : String} {v : β} {q : String × β}
    (hq : q ∈ setA l k v) : q = (k, v) ∨ q ∈ l := by
  induction l with
  | nil => simpa [setA] using hq
  | cons p rest ih =>
    by_cases h : p.1 = k
    · simp only [setA, if_pos h, List.mem_cons] at hq
      rcases hq with hq | hq
      · exact Or.inl hq
      · exact Or.inr (List.mem_cons_of_mem _ hq)
    · simp only [setA, if_neg h, List.mem_cons] at hq
      rcases hq with hq | hq
      · exact Or.inr (hq ▸ List.mem_cons_self _ _)
      · rcases ih hq with hq | hq
        · exact Or.inl hq
        · exact Or.inr (List.mem_cons_of_mem _ hq)

theorem eraseA_sublist {β : Type} (l : List (String × β)) (k : String) :
    (eraseA l k).Sublist l := by
  induction l with
  | nil => simp [eraseA]
  | cons p rest ih =>
    by_cases h : p.1 = k
    · simp [eraseA, h, List.sublist_cons_self]
    · simpa [eraseA, h] using ih.cons₂ p

theorem mem_eraseA {β : Type} {l : List (String × β)} {k : String} {q : String × β}
    (hq : q ∈ eraseA l k) : q ∈ l :=
  (eraseA_sublist l k).mem hq

theorem lookupA_mem {β : Type} {l : List (String × β)} {k : String} {v : β}
    (h : lookupA l k = some v) : (k, v) ∈ l := by
  induction l with
  | nil => simp [lookupA] at h
  | cons p rest ih =>
    by_cases hp : p.1 = k
    · simp only [lookupA, if_pos hp] at h
      have hv : v = p.2 := (Option.some.inj h).symm
      subst hv
      have hk : k = p.1 := hp.symm
      subst hk
      exact List.mem_cons_self _ _
    · simp only [lookupA, if_neg hp] at h
      exact List.mem_cons_of_mem _ (ih h)

theorem lookupA_eq_none_of_not_mem_keys {β : Type} {l : List (String × β)} {k : String}
    (h : k ∉ l.map Prod.fst) : lookupA l k = none := by
  induction l with
  | nil => simp [lookupA]
  | cons p rest ih =>
    simp only [List.map_cons, List.mem_cons, not_or] at h
    have hp : p.1 ≠ k := fun hk => h.1 hk.symm
    simp [lookupA, hp, ih h.2]

theorem mem_keys_of_lookupA {β : Type} {l : List (String × β)} {k : String} {v : β}
    (h : lookupA l k = some v) : k ∈ l.map Prod.fst := by
  have := lookupA_mem h
  exact List.mem_map.mpr ⟨(k, v), this, rfl⟩

theorem keys_setA_of_mem {β : Type} {l : List (String × β)} {k : String} (v : β)
    (h : k ∈ l.map Prod.fst) : (setA l k v).map Prod.fst = l.map Prod.fst := by
  induction l with
  | nil => simp at h
  | cons p rest ih =>
    by_cases hp : p.1 = k
    · simp [setA, hp]
    · simp only [List.map_cons, List.mem_cons] at h
      rcases h with h | h
      · exact absurd h.symm hp
      · simp [setA, hp, ih h]

theorem keys_setA_of_not_mem {β : Type} {l : List (String × β)} {k : String} (v : β)
    (h : k ∉ l.map Prod.fst) : (setA l k v).map Prod.fst = l.map Prod.fst ++ [k] := by
  induction l with
  | nil => simp [setA]
  | cons p rest ih =>
    simp only [List.map_cons, List.mem_cons, not_or] at h
    have hp : p.1 ≠ k := fun hk => h.1 hk.symm
    simp [setA, hp, ih h.2]

theorem nodup_keys_setA {β : Type} {l : List (String × β)} {k : String} (v : β)
    (h : (l.map Prod.fst).Nodup) : ((setA l k v).map Prod.fst).Nodup := by
  by_cases hk : k ∈ l.map Prod.fst
  · rw [keys_setA_of_mem v hk]; exact h
  · rw [keys_setA_of_not_mem v hk]
    exact List.Nodup.append h (List.nodup_singleton k) (by
      intro a ha hb
      simp only [List.mem_singleton] at hb
      exact hk (hb ▸ ha))

theorem eraseA_of_not_mem_keys {β : Type} {l : List (String × β)} {k : String}
    (h : k ∉ l.map Prod.fst) : eraseA l k = l := by
  induction l with
  | nil => simp [eraseA]
  | cons p rest ih =>
    simp only [List.map_cons, List.mem_cons, not_or] at h
    have hp : p.1 ≠ k := fun hk => h.1 hk.symm
    simp [eraseA, hp, ih h.2]

theorem not_mem_keys_eraseA {β : Type} {l : List (String × β)} {k : String}
    (h : (l.map Prod.fst).Nodup) : k ∉ (eraseA l k).map Prod.fst := by
  induction l with
  | nil => simp [eraseA]
  | cons p rest ih =>
    simp only [List.map_cons, List.nodup_cons] at h
    by_cases hp : p.1 = k
    · subst hp
      simp only [eraseA, if_pos rfl]
      exact fun hk => h.1 hk
    · simp only [eraseA, if_neg hp, List.map_cons, List.mem_cons]
      rintro (hk | hk)
      · exact hp hk.symm
      · exact ih h.2 hk

theorem setA_setA {β : Type} (l : List (String × β)) (k : String) (v : β) :
    setA (setA l k v) k v = setA l k v := by
  induction l with
  | nil => simp [setA]
  | cons p rest ih =>
    by_cases h : p.1 = k
    · simp [setA, h]
    · simp [setA, h, ih]

theorem countA_eq_one_of_lookupA {β : Type} {l : List (String × β)} {k : String} {v : β}
    (hnd : (l.map Prod.fst).Nodup) (h : lookupA l k = some v) : countA l k = 1 := by
  induction l with
  | nil => simp [lookupA] at h
  | cons p rest ih =>
    simp only [List.map_cons, List.nodup_cons] at hnd
    by_cases hp : p.1 = k
    · have hk : k ∉ rest.map Prod.fst := hp ▸ hnd.1
      have hrest : (rest.filter (fun q => q.1 == k)) = [] := by
        rw [List.filter_eq_nil_iff]
        intro q hq hqk
        exact hk (List.mem_map.mpr ⟨q, hq, by simpa using hqk⟩)
      simp [countA, List.filter_cons, hp, hrest]
    · simp only [lookupA, if_neg hp] at h
      have := ih hnd.2 h
      simpa [countA, List.filter_cons, hp] using this

/-- If no pattern matches a fixed sender name, the rewrite loop leaves it
unchanged. -/
theorem rewriteSenderLoop_of_no_match {patterns : List Pattern} {s : String}
    (h : patterns.any (fun p => p.search s) = false) :
    rewriteSenderLoop patterns s = s := by
  induction patterns with
  | nil => rfl
  | cons p rest ih =>
    simp only [List.any_cons, Bool.or_eq_false_iff] at h
    have h1 : p.search s = false := h.1
    simp only [rewriteSenderLoop, List.foldl_cons, h1, Bool.false_eq_true, if_false]
    exact ih h.2

/-- Masking an empty string gives back an empty string (every matched
substring is replaced by the same number of asterisks), so the rewrite loop
fixes `""`. -/
theorem rewriteSenderLoop_empty {patterns : List Pattern}
    (h : ∀ p ∈ patterns, p.maskSub "" = "") :
    rewriteSenderLoop patterns "" = "" := by
  induction patterns with
  | nil => rfl
  | cons p rest ih =>
    have hp := h p (List.mem_cons_self _ _)
    simp only [rewriteSenderLoop, List.foldl_cons]
    by_cases hs : p.search "" = true
    · simp only [hs, if_pos rfl, hp]
      exact ih fun q hq => h q (List.mem_cons_of_mem _ hq)
    · simp only [Bool.not_eq_true] at hs
      simp only [hs, Bool.false_eq_true, if_false]
      exact ih fun q hq => h q (List.mem_cons_of_mem _ hq)

/-- Writing back the current sender is the identity. -/
theorem withSender_self (m : DanmakuMessage) : m.withSender m.sender = m := by
  cases m; rfl

theorem not_mem_keys_of_lookupA_none {β : Type} {l : List (String × β)} {k : String}
    (h : lookupA l k = none) : k ∉ l.map Prod.fst := by
  induction l with
  | nil => simp
  | cons p rest ih =>
    by_cases hp : p.1 = k
    · simp [lookupA, hp] at h
    · simp only [lookupA, if_neg hp] at h
      simp only [List.map_cons, List.mem_cons]
      rintro (hk | hk)
      · exact hp hk.symm
      · exact ih h hk

/-- Removing a key keeps the registry well formed and keeps the non-empty
invariant. -/
theorem preserve_eraseA {st : CMState} (g : String)
    (hwf : wfState st) (hg : goodState st) :
    wfState { st with clientConnections := eraseA st.clientConnections g } ∧
      goodState { st with clientConnections := eraseA st.clientConnections g } := by
  refine ⟨⟨?_, ?_⟩, ?_⟩
  · exact List.Nodup.sublist ((eraseA_sublist _ _).map Prod.fst) hwf.1
  · intro p hp
    exact hwf.2 p (mem_eraseA hp)
  · intro p hp
    exact hg p (mem_eraseA hp)

/-- Updating an existing key with a duplicate-free, non-empty session list
keeps the registry well formed and keeps the non-empty invariant. -/
theorem preserve_setA {st : CMState} {g : String} {v : List Nat}
    (hmem : g ∈ st.clientConnections.map Prod.fst)
    (hwf : wfState st) (hg : goodState st) (hvnd : v.Nodup) (hvne : v ≠ []) :
    wfState { st with clientConnections := setA st.clientConnections g v } ∧
      goodState { st with clientConnections := setA st.clientConnections g v } := by
  refine ⟨⟨?_, ?_⟩, ?_⟩
  · rw [show ({ st with clientConnections := setA st.clientConnections g v } :
        CMState).clientConnections = setA st.clientConnections g v from rfl,
      keys_setA_of_mem v hmem]
    exact hwf.1
  · intro p hp
    rcases mem_setA hp with rfl | hp
    · exact hvnd
    · exact hwf.2 p hp
  · intro p hp
    rcases mem_setA hp with rfl | hp
    · exact hvne
    · exact hg p hp

/-- `disconnect_client` preserves well-formedness and the non-empty
invariant. -/
theorem disconnectClient_preserves (st : CMState) (w : Nat) (g : String)
    (hwf : wfState st) (hg : goodState st) :
    wfState (disconnectClient st w g) ∧ goodState (disconnectClient st w g) := by
  unfold disconnectClient
  cases hl : lookupA st.clientConnections g with
  | none =>
    simp only [hl, Option.getD_none, List.erase_nil, List.isEmpty_nil, if_true]
    exact preserve_eraseA g hwf hg
  | some conns =>
    simp only [hl, Option.getD_some]
    by_cases he : (conns.erase w).isEmpty
    · simp only [he, if_true]
      exact preserve_eraseA g hwf hg
    · simp only [he, Bool.false_eq_true, if_false]
      have hcnd : conns.Nodup := hwf.2 _ (lookupA_mem hl)
      have hne : conns.erase w ≠ [] := by
        intro hnil
        rw [hnil] at he
        exact he rfl
      exact preserve_setA (mem_keys_of_lookupA hl) hwf hg (hcnd.erase w) hne

/-- The failure-collection fold of the broadcast methods preserves
well-formedness and the non-empty invariant. -/
theorem foldl_disconnect_preserves (ws : List Nat) (g : String) :
    ∀ st, wfState st → goodState st →
      wfState (ws.foldl (fun s w => disconnectClient s w g) st) ∧
        goodState (ws.foldl (fun s w => disconnectClient s w g) st) := by
  induction ws with
  | nil => exact fun st h1 h2 => ⟨h1, h2⟩
  | cons w rest ih =>
    intro st h1 h2
    simp only [List.foldl_cons]
    have h := disconnectClient_preserves st w g h1 h2
    exact ih _ h.1 h.2

/-- `disconnect_client` on a group that is not registered leaves the state
unchanged (the defaultdict entry it creates is deleted again at once). -/
theorem disconnectClient_absent {st : CMState} {w : Nat} {g : String}
    (hl : lookupA st.clientConnections g = none) :
    disconnectClient st w g = st := by
  unfold disconnectClient
  rw [hl]
  simp only [Option.getD_none, List.erase_nil, List.isEmpty_nil, if_true]
  rw [eraseA_of_not_mem_keys (not_mem_keys_of_lookupA_none hl)]

theorem contains_eq_false_of_not_mem {l : List String} {s : String} (h : s ∉ l) :
    l.contains s = false := by
  simp [List.contains, List.elem_eq_mem, h]

/-- Step 1 of the blacklist decision: under Python truthiness the code
condition agrees with the spec condition whenever the forbidden set has no
empty entry (the loader skips blank lines, so it never does). -/
theorem step1_align {svc : BlacklistService} {m : DanmakuMessage}
    (h1 : "" ∉ svc.forbiddenUsers) :
    (strTruthy m.senderId && svc.forbiddenUsers.contains (m.senderId.getD ""))
      = specSenderBlocked svc m := by
  cases hs : m.senderId with
  | none => simp [strTruthy, specSenderBlocked, hs]
  | some s =>
    by_cases he : s = ""
    · subst he
      simp only [hs, strTruthy, specSenderBlocked, beq_self_eq_true, Bool.not_true,
        Bool.false_and]
      exact (contains_eq_false_of_not_mem h1).symm
    · simp [strTruthy, specSenderBlocked, hs, he]

/-- Step 2 of the blacklist decision: the code rewrite (guarded by Python
truthiness of the sender) agrees with the spec rewrite, because masking fixes
the empty string and a sender matched by no pattern is left unchanged by the
rewrite loop. -/
theorem step2_align {svc : BlacklistService} {m : DanmakuMessage}
    (h2 : ∀ p ∈ svc.patterns, p.maskSub "" = "") :
    (if ((m.msgType == "superchat" || m.msgType == "gift") && strTruthy m.sender) then
        m.withSender (some (rewriteSenderLoop svc.patterns (m.sender.getD "")))
      else m)
      = specRewritten svc m := by
  unfold specRewritten isMonetary
  cases hs : m.sender with
  | none => simp [hs, strTruthy]
  | some s =>
    by_cases he : s = ""
    · subst he
      have hst : strTruthy (some "") = false := by simp [strTruthy]
      have hws : m.withSender (some "") = m := by rw [← hs, withSender_self]
      simp [hst, rewriteSenderLoop_empty h2, hws]
    · have hst : strTruthy (some s) = true := by simp [strTruthy, he]
      rw [hst]
      simp only [Bool.and_true, Option.getD_some]
      by_cases hm : (m.msgType == "superchat" || m.msgType == "gift") = true
      · rw [if_pos hm, if_pos hm]
        by_cases ha : svc.patterns.any (fun p => p.search s) = true
        · rw [if_pos ha]
        · rw [if_neg ha]
          have ha' : svc.patterns.any (fun p => p.search s) = false := by
            simpa using ha
          rw [rewriteSenderLoop_of_no_match ha', ← hs, withSender_self]
      · rw [if_neg hm, if_neg hm]

/-- Step 3 of the blacklist decision: the text check of the code agrees with
the amended spec predicate (an empty text never blocks). -/
theorem step3_align (svc : BlacklistService) (m : DanmakuMessage) :
    (match m.text? with
      | none => ((false : Bool), m)
      | some t =>
        if t == "" then ((false : Bool), m)
        else (svc.patterns.any fun p => p.search t, m))
      = (if specTextBlockedAmended svc m then (true, m) else (false, m)) := by
  unfold specTextBlockedAmended
  cases ht : m.text? with
  | none => simp
  | some t =>
    by_cases he : t == ""
    · simp [he]
    · have he' : (t == "") = false := by simpa using he
      simp only [he', Bool.false_eq_true, if_false, Bool.not_false, Bool.true_and]
      by_cases ha : svc.patterns.any (fun p => p.search t) = true
      · simp [ha]
      · have ha' : svc.patterns.any (fun p => p.search t) = false := by
          simpa using ha
        simp [ha']

/-! ## Claim theorems -/

/-- C1, counterexample to the claim as stated: with a single blacklist
pattern that matches every string (as the regex `a*` does) and an empty
forbidden set, a plain message whose `text` field is the empty string carries
a text field that matches the pattern, so the claimed decision procedure
blocks it — but `BlacklistService.should_filter` returns pass, because
`if not text` treats the empty text like an absent one. -/
theorem C1_counterexample :
    (BlacklistService.shouldFilter ⟨[matchAllPattern], []⟩ plainEmptyText).1 = false ∧
      (blacklistSpec ⟨[matchAllPattern], []⟩ plainEmptyText).1 = true := by
  exact ⟨rfl, rfl⟩

/-- C1 (amended): the blacklist decision proceeds in order — forbidden sender
id blocks; a monetary message (superchat or gift) whose sender name matches
some pattern has each matched substring masked with asterisks and is not
blocked on that ground; a message carrying a NON-EMPTY text field that matches
some pattern is blocked; otherwise it passes with no change beyond the sender
rewrite.  The two side conditions hold for the real service: the forbidden-id
loader skips blank lines, and regex masking maps the empty string to itself. -/
theorem C1_blacklist_decision_amended (svc : BlacklistService) (m : DanmakuMessage)
    (h1 : "" ∉ svc.forbiddenUsers)
    (h2 : ∀ p ∈ svc.patterns, p.maskSub "" = "") :
    BlacklistService.shouldFilter svc m = blacklistSpecAmended svc m := by
  unfold BlacklistService.shouldFilter blacklistSpecAmended
  rw [step1_align h1]
  by_cases hb : specSenderBlocked svc m = true
  · rw [if_pos hb, if_pos hb]
  · rw [if_neg hb, if_neg hb]
    rw [step2_align h2]
    exact step3_align svc (specRewritten svc m)

/-- C1 witness: the amended decision theorem applied to a concrete service
(one pattern matching every string, no forbidden ids) and the concrete
superchat message. -/
theorem C1_witness :
    ("" ∉ (⟨[matchAllPattern], []⟩ : BlacklistService).forbiddenUsers) ∧
      BlacklistService.shouldFilter ⟨[matchAllPattern], []⟩ scMsg
        = blacklistSpecAmended ⟨[matchAllPattern], []⟩ scMsg := by
  refine ⟨by simp, ?_⟩
  exact C1_blacklist_decision_amended ⟨[matchAllPattern], []⟩ scMsg (by simp)
    (by intro p hp; simp only [List.mem_singleton] at hp; subst hp; rfl)

/-- C2: evaluation of `DedupQueue._message_key` at the inputs that decide the
claim.  For text-carrying messages the key is `(sender_name, text)` when
monetary and `(None, text)` otherwise, exactly as claimed — but a message
without a `text` field does not bypass dedup: the unconditional
`message.text` access raises `AttributeError` for an emote and even for the
monetary gift variant that the method itself dispatches on. -/
theorem C2_message_key_eval :
    DedupQueue.messageKey scMsg = .ok (some "dan", "thanks") ∧
      DedupQueue.messageKey plainHi = .ok (none, "hi") ∧
      DedupQueue.messageKey emoteMsg = .error "AttributeError: text" ∧
      DedupQueue.messageKey giftMsg = .error "AttributeError: text" := by
  exact ⟨rfl, rfl, rfl, rfl⟩

/-- C3, counterexample to the claim as stated: the claim says
`"hello /置顶 #ff0000"` parses to the same result as
`"/置顶 #ff0000 hello"`, but the code yields a bare plain message with the
original text — `COLOR_RE` requires trailing whitespace after the hex digits,
so the final `#ff0000` is not a directive token and the lone position token
sits in the interior. -/
theorem C3_counterexample :
    createPlain "i" "s" "hello /置顶 #ff0000"
        = .ok ⟨some "i", some "s", false,
            .plain "hello /置顶 #ff0000" none none .scroll⟩ ∧
      createPlain "i" "s" "/置顶 #ff0000 hello"
        = .ok ⟨some "i", some "s", false,
            .plain "hello" (some "#ff0000") none .top⟩ ∧
      (⟨some "i", some "s", false,
          .plain "hello /置顶 #ff0000" none none .scroll⟩ : DanmakuMessage)
        ≠ ⟨some "i", some "s", false, .plain "hello" (some "#ff0000") none .top⟩ := by
  exact ⟨rfl, rfl, by decide⟩

/-- C3 (amended): `"/置顶 #ff0000 hello"` parses to
`plain{text "hello", position top, color "#ff0000"}`;
`"hello /置顶 #ff0000"` parses to a bare plain message with the original
text (the trailing color needs whitespace after it to be a token, so the
directives are not recognized as a suffix); `"foo /置顶 bar"` parses to a
bare plain message with the original text. -/
theorem C3_parse_examples_amended :
    createPlain "i" "s" "/置顶 #ff0000 hello"
        = .ok ⟨some "i", some "s", false, .plain "hello" (some "#ff0000") none .top⟩ ∧
      createPlain "i" "s" "hello /置顶 #ff0000"
        = .ok ⟨some "i", some "s", false,
            .plain "hello /置顶 #ff0000" none none .scroll⟩ ∧
      createPlain "i" "s" "foo /置顶 bar"
        = .ok ⟨some "i", some "s", false,
            .plain "foo /置顶 bar" none none .scroll⟩ := by
  exact ⟨rfl, rfl, rfl⟩

/-- C7: evaluation at the failing input `"#ff0000 hello"` (directive tokens a
contiguous prefix, a color token and no position token).  `parse_command`
fills the missing position with the string `"rtl"` — the comment next to that
line says "default scroll", and the `PlainDanmakuMessage` model only admits
`top`, `bottom`, `scroll` — so constructing the message raises a pydantic
`ValidationError` instead of producing a scroll-positioned message with the
color preserved. -/
theorem C7_color_only_validation_error :
    parse_command "#ff0000 hello" = .directives "rtl" (some "#ff0000") "hello" ∧
      createPlain "i" "s" "#ff0000 hello" = .error "ValidationError: position" := by
  exact ⟨by decide, rfl⟩

/-- C10: `DanmakuBuilder.gift` supplies `cost`, `senderId`, `sender` and
`is_special` to the `GiftMessage` constructor but never `gift_name` or
`quantity`, which are required fields without defaults — so every call raises
a pydantic `ValidationError` and no gift message is ever returned. -/
theorem C10_gift_builder_always_raises (cost : Int) (senderId sender : Option String)
    (special : Bool) :
    DanmakuBuilder.gift cost senderId sender special
      = .error "ValidationError: gift_name, quantity" := rfl

/-- C4, counterexample to the claim as stated: with one viewer on channel
`"a"` and a filter whose decision function raises, `broadcast_to_group`
neither catches the exception nor delivers — the call evaluates to the raised
exception, not to a delivery to the viewer. -/
theorem C4_counterexample :
    broadcastToGroup (fun _ _ => Except.error "boom") (fun _ => true)
        oneViewerState "a" { plainHi with is_special := true }
      = .error "boom" := rfl

/-- C4 (amended): when the filter's decision function raises during a
broadcast on a channel with viewers, the exception escapes
`broadcast_to_group` (nothing is delivered and the registry is unchanged) and
is only caught by the generic handler of the upstream websocket loop, which
logs it and answers the upstream with an error frame instead of delivering
the message. -/
theorem C4_filter_exception_amended
    (filterFn : String → DanmakuMessage → Except String Bool) (sendOk : Nat → Bool)
    (st : CMState) (g : String) (m : DanmakuMessage) (conns : List Nat) (e : String)
    (hview : lookupA st.clientConnections g = some conns)
    (hraise : filterFn g { m with is_special := true } = .error e) :
    broadcastToGroup filterFn sendOk st g { m with is_special := true } = .error e ∧
      handleUpstreamDanmaku filterFn sendOk st g m = .errorFrame st e := by
  have hb : broadcastToGroup filterFn sendOk st g { m with is_special := true }
      = .error e := by
    unfold broadcastToGroup
    rw [hview, hraise]
  refine ⟨hb, ?_⟩
  unfold handleUpstreamDanmaku
  simp only [hb]

/-- C4 witness: the amended theorem applied to the one-viewer registry and an
always-raising filter. -/
theorem C4_witness :
    lookupA oneViewerState.clientConnections "a" = some [1] ∧
      ((fun (_ : String) (_ : DanmakuMessage) =>
          (Except.error "boom" : Except String Bool)) "a"
        { plainHi with is_special := true } = Except.error "boom") ∧
      (broadcastToGroup (fun _ _ => Except.error "boom") (fun _ => true) oneViewerState
          "a" { plainHi with is_special := true } = .error "boom" ∧
        handleUpstreamDanmaku (fun _ _ => Except.error "boom") (fun _ => true)
          oneViewerState "a" plainHi = .errorFrame oneViewerState "boom") :=
  ⟨rfl, rfl,
    C4_filter_exception_amended (fun _ _ => Except.error "boom") (fun _ => true)
      oneViewerState "a" plainHi [1] "boom" rfl rfl⟩

/-- C5: evaluation of the crown-append step at the inputs that decide the
claim.  For the variants carrying `text` the crown is appended, but for a
special emote or gift message the attribute access `message.text` raises
`AttributeError`: the broadcast of a special emote to a channel with a viewer
evaluates to the exception (nothing is delivered), which the upstream loop
turns into an error frame.  The claim that the step is defined for all four
variants and never raises is false — and since the upstream route forces
`is_special = True` on every danmaku packet, no upstream emote or gift can
ever be delivered. -/
theorem C5_crown_append_eval :
    appendCrown { plainHi with is_special := true }
        = .ok ⟨some "u1", some "alice", true, .plain "hi👑" none none .scroll⟩ ∧
      appendCrown { emoteMsg with is_special := true } = .error "AttributeError: text" ∧
      appendCrown { giftMsg with is_special := true } = .error "AttributeError: text" ∧
      broadcastToGroup (fun _ _ => Except.ok false) (fun _ => true) oneViewerState "a"
          { emoteMsg with is_special := true } = .error "AttributeError: text" ∧
      handleUpstreamDanmaku (fun _ _ => Except.ok false) (fun _ => true) oneViewerState
          "a" emoteMsg = .errorFrame oneViewerState "AttributeError: text" := by
  exact ⟨rfl, rfl, rfl, rfl, rfl⟩

/-- C6, counterexample to the claim as stated: the one-viewer registry
satisfies the invariant, but `disconnect_all` only clears the per-channel
sets and never deletes the keys, so channel `"a"` is left mapping to the
empty set and the invariant is violated. -/
theorem C6_counterexample :
    goodState oneViewerState ∧
      (disconnectAll oneViewerState).clientConnections = [("a", [])] ∧
      ¬ goodState (disconnectAll oneViewerState) := by
  refine ⟨?_, rfl, ?_⟩
  · unfold goodState
    decide
  · unfold goodState
    decide

/-- C6 (amended): on a well-formed registry (unique dict keys, duplicate-free
session sets) satisfying the non-empty invariant, `connect_client`,
`disconnect_client`, `broadcast_to_group` and `broadcast_control` preserve
the invariant; disconnecting the last viewer of a channel removes the channel
entry; double `disconnect_client` with the same session and channel equals a
single call; but `disconnect_all` keeps every channel key and maps it to the
empty session set (violating the invariant whenever a channel existed). -/
theorem C6_registry_invariant_amended
    (st : CMState) (w : Nat) (g : String)
    (filterFn : String → DanmakuMessage → Except String Bool)
    (sendOk : Nat → Bool) (m : DanmakuMessage)
    (hwf : wfState st) (hg : goodState st) :
    goodState (connectClient st w g) ∧
      goodState (disconnectClient st w g) ∧
      (∀ st' d sent,
        broadcastToGroup filterFn sendOk st g m = .ok (st', d, sent) → goodState st') ∧
      goodState (broadcastControl sendOk st g).1 ∧
      (disconnectAll st).clientConnections.map Prod.fst
          = st.clientConnections.map Prod.fst ∧
      (∀ p ∈ (disconnectAll st).clientConnections, p.2 = ([] : List Nat)) ∧
      (lookupA st.clientConnections g = some [w] →
        lookupA (disconnectClient st w g).clientConnections g = none) ∧
      disconnectClient (disconnectClient st w g) w g = disconnectClient st w g := by
  have hval : ∀ (conns : List Nat),
      (if conns.contains w then conns else conns ++ [w]) ≠ [] := by
    intro conns
    by_cases hc : conns.contains w = true
    · rw [if_pos hc]
      intro hnil
      subst hnil
      simp [List.contains] at hc
    · rw [if_neg hc]
      simp
  refine ⟨?_, (disconnectClient_preserves st w g hwf hg).2, ?_, ?_, ?_, ?_, ?_, ?_⟩
  · intro p hp
    simp only [connectClient] at hp
    rcases mem_setA hp with heq | hp'
    · rw [heq]
      exact hval _
    · exact hg p hp'
  · intro st' d sent h
    unfold broadcastToGroup at h
    cases hl : lookupA st.clientConnections g with
    | none =>
      rw [hl] at h
      simp only [Except.ok.injEq, Prod.mk.injEq] at h
      obtain ⟨h1, -, -⟩ := h
      exact h1 ▸ hg
    | some conns =>
      rw [hl] at h
      cases hf : filterFn g m with
      | error e =>
        rw [hf] at h
        simp at h
      | ok b =>
        rw [hf] at h
        cases b with
        | true =>
          simp only [Except.ok.injEq, Prod.mk.injEq] at h
          obtain ⟨h1, -, -⟩ := h
          exact h1 ▸ hg
        | false =>
          cases hc : appendCrown m with
          | error e =>
            rw [hc] at h
            simp at h
          | ok m2 =>
            rw [hc] at h
            simp only [Except.ok.injEq, Prod.mk.injEq] at h
            obtain ⟨h1, -, -⟩ := h
            exact h1 ▸
              (foldl_disconnect_preserves (conns.filter fun w => !sendOk w) g st hwf hg).2
  · unfold broadcastControl
    cases hl : lookupA st.clientConnections g with
    | none => exact hg
    | some conns =>
      exact (foldl_disconnect_preserves (conns.filter fun w => !sendOk w) g st hwf hg).2
  · simp [disconnectAll, List.map_map, Function.comp]
  · intro p hp
    simp only [disconnectAll, List.mem_map] at hp
    obtain ⟨q, -, rfl⟩ := hp
    rfl
  · intro hl
    unfold disconnectClient
    rw [hl]
    simp only [Option.getD_some, List.erase_cons_head, List.isEmpty_nil, if_true]
    exact lookupA_eq_none_of_not_mem_keys (not_mem_keys_eraseA hwf.1)
  · cases hl : lookupA st.clientConnections g with
    | none => rw [disconnectClient_absent hl, disconnectClient_absent hl]
    | some conns =>
      by_cases he : (conns.erase w).isEmpty
      · have h1 : disconnectClient st w g
            = { st with clientConnections := eraseA st.clientConnections g } := by
          unfold disconnectClient
          rw [hl]
          simp only [Option.getD_some, he, if_true]
        rw [h1]
        exact disconnectClient_absent
          (lookupA_eq_none_of_not_mem_keys (not_mem_keys_eraseA hwf.1))
      · have h1 : disconnectClient st w g
            = { st with
                clientConnections := setA st.clientConnections g (conns.erase w) } := by
          unfold disconnectClient
          rw [hl]
          simp only [Option.getD_some, he, Bool.false_eq_true, if_false]
        rw [h1]
        have hcnd : conns.Nodup := hwf.2 _ (lookupA_mem hl)
        have hw : w ∉ conns.erase w := by
          intro hmem
          exact ((List.Nodup.mem_erase_iff hcnd).mp hmem).1 rfl
        unfold disconnectClient
        simp only [lookupA_setA_self, Option.getD_some, List.erase_of_not_mem hw,
          setA_setA]
        simp [he]

/-- C6 witness: the amended theorem applied to the one-viewer registry. -/
theorem C6_witness :
    wfState oneViewerState ∧ goodState oneViewerState ∧
      (goodState (connectClient oneViewerState 1 "a") ∧
        goodState (disconnectClient oneViewerState 1 "a") ∧
        (∀ st' d sent,
          broadcastToGroup (fun _ _ => Except.ok false) (fun _ => true) oneViewerState
            "a" plainHi = .ok (st', d, sent) → goodState st') ∧
        goodState (broadcastControl (fun _ => true) oneViewerState "a").1 ∧
        (disconnectAll oneViewerState).clientConnections.map Prod.fst
            = oneViewerState.clientConnections.map Prod.fst ∧
        (∀ p ∈ (disconnectAll oneViewerState).clientConnections, p.2 = ([] : List Nat)) ∧
        (lookupA oneViewerState.clientConnections "a" = some [1] →
          lookupA (disconnectClient oneViewerState 1 "a").clientConnections "a"
            = none) ∧
        disconnectClient (disconnectClient oneViewerState 1 "a") 1 "a"
          = disconnectClient oneViewerState 1 "a") := by
  have hwf : wfState oneViewerState := by
    unfold wfState
    decide
  have hg : goodState oneViewerState := by
    unfold goodState
    decide
  exact ⟨hwf, hg,
    C6_registry_invariant_amended oneViewerState 1 "a" (fun _ _ => Except.ok false)
      (fun _ => true) plainHi hwf hg⟩

/-- Case analysis of `EmojiCache.get`: either a miss with the key absent from
the resulting store, or a hit returning an entry that the resulting store
holds under the key with its expiry refreshed to `now + TTL`; either way the
store keys stay duplicate-free. -/
theorem getItem_spec (now : Nat) (c : EmojiCache) (k : String)
    (hwf : (c.store.map Prod.fst).Nodup) :
    ((EmojiCache.getItem now c k).1 = none ∧
        lookupA (EmojiCache.getItem now c k).2.store k = none ∨
      ∃ item, (EmojiCache.getItem now c k).1 = some item ∧
        lookupA (EmojiCache.getItem now c k).2.store k = some item ∧
        item.expire = now + TTL_SECONDS) ∧
      ((EmojiCache.getItem now c k).2.store.map Prod.fst).Nodup := by
  unfold EmojiCache.getItem
  cases hl : lookupA c.store k with
  | none =>
    refine ⟨Or.inl ⟨?_, ?_⟩, ?_⟩ <;> simp [hl, hwf]
  | some item =>
    simp only [hl]
    by_cases hexp : item.expire < now
    · rw [if_pos hexp]
      refine ⟨Or.inl ⟨rfl, ?_⟩, ?_⟩
      · exact lookupA_eq_none_of_not_mem_keys (not_mem_keys_eraseA hwf)
      · exact List.Nodup.sublist ((eraseA_sublist _ _).map Prod.fst) hwf
    · rw [if_neg hexp]
      exact ⟨Or.inr ⟨_, rfl, lookupA_setA_self _ _ _, rfl⟩, nodup_keys_setA _ hwf⟩

/-- A successful ingest returns the MD5 key of the normalized bytes and
leaves the store holding an entry under that key whose expiry is
`now + TTL`, with the store keys still duplicate-free. -/
theorem importEmojiSync_ok (normalize : String → Except String String)
    (md5 : String → String) (now : Nat) (c : EmojiCache) (content b : String)
    (hwf : (c.store.map Prod.fst).Nodup) (hn : normalize content = .ok b) :
    (importEmojiSync normalize md5 now c content).1 = .ok (md5 b) ∧
      (∃ item,
        lookupA (importEmojiSync normalize md5 now c content).2.store (md5 b)
            = some item ∧
          item.expire = now + TTL_SECONDS) ∧
      ((importEmojiSync normalize md5 now c content).2.store.map Prod.fst).Nodup := by
  obtain ⟨hcase, hnd⟩ := getItem_spec now c (md5 b) hwf
  rcases hgi : EmojiCache.getItem now c (md5 b) with ⟨o, c'⟩
  rw [hgi] at hcase hnd
  dsimp only at hcase hnd
  unfold importEmojiSync
  simp only [hn, hgi]
  rcases hcase with ⟨ho, hl⟩ | ⟨item, ho, hl, he⟩
  · subst ho
    exact ⟨rfl, ⟨_, lookupA_setA_self _ _ _, rfl⟩, nodup_keys_setA _ hnd⟩
  · subst ho
    exact ⟨rfl, ⟨item, hl, he⟩, hnd⟩

/-- A store entry whose expiry was just set to `now + TTL` is a hit for
`get` at time `now`. -/
theorem getItem_fresh (now : Nat) (c : EmojiCache) (k : String) (item : CacheItem)
    (hl : lookupA c.store k = some item) (hexp : item.expire = now + TTL_SECONDS) :
    ((EmojiCache.getItem now c k).1).isSome = true := by
  unfold EmojiCache.getItem
  have hne : ¬ item.expire < now := by
    rw [hexp]
    unfold TTL_SECONDS
    omega
  simp [hl, hne]

/-- C8, counterexample to the claim as stated: with a 200 download whose body
is not decodable as an image, `load_emoji` does not return null — the decode
exception escapes the function (the `try` block only wraps the download). -/
theorem C8_counterexample :
    loadEmoji (fun _ => Except.error "UnidentifiedImageError") (fun s => s)
        (.resp 200 "junk") 0 ⟨[]⟩
      = (Except.error "UnidentifiedImageError", ⟨[]⟩) := rfl

/-- C8 (amended): when the download succeeds with status 200 but the body
cannot be decoded as an image, no entry is inserted into the cache store (the
store is unchanged), but the decode exception ESCAPES `load_emoji` to the
caller instead of being converted to a null return — only download errors
and non-200 statuses produce the null return. -/
theorem C8_decode_failure_amended (normalize : String → Except String String)
    (md5 : String → String) (download : DownloadResult) (now : Nat) (c : EmojiCache)
    (content e : String)
    (hdl : download = .resp 200 content)
    (hdec : normalize content = .error e) :
    loadEmoji normalize md5 download now c = (Except.error e, c) := by
  subst hdl
  unfold loadEmoji importEmojiSync
  simp [hdec]

/-- C8 witness: the amended theorem applied to a concrete cache with one
entry, a 200 download of undecodable bytes and the failing decoder. -/
theorem C8_witness :
    (DownloadResult.resp 200 "junk" : DownloadResult) = .resp 200 "junk" ∧
      ((fun (_ : String) =>
          (Except.error "UnidentifiedImageError" : Except String String)) "junk"
        = Except.error "UnidentifiedImageError") ∧
      loadEmoji (fun _ => Except.error "UnidentifiedImageError") (fun s => s)
          (.resp 200 "junk") 3 ⟨[("k", ⟨"d", "image/webp", 100, 0⟩)]⟩
        = (Except.error "UnidentifiedImageError",
            ⟨[("k", ⟨"d", "image/webp", 100, 0⟩)]⟩) :=
  ⟨rfl, rfl,
    C8_decode_failure_amended (fun _ => Except.error "UnidentifiedImageError")
      (fun s => s) (.resp 200 "junk") 3 ⟨[("k", ⟨"d", "image/webp", 100, 0⟩)]⟩
      "junk" "UnidentifiedImageError" rfl rfl⟩

/-- C9: on a store with duplicate-free keys, a successful ingest returns the
hex MD5 of the normalized output bytes as the key; ingesting byte-identical
content a second time (at any later or earlier time) returns the same key and
the store then holds exactly one entry under that key; and immediately after
the second ingest, `get` on the returned key is a hit. -/
theorem C9_emoji_ingest_dedup (normalize : String → Except String String)
    (md5 : String → String) (c : EmojiCache) (content b : String) (n1 n2 : Nat)
    (hwf : (c.store.map Prod.fst).Nodup)
    (hn : normalize content = .ok b) :
    (importEmojiSync normalize md5 n1 c content).1 = .ok (md5 b) ∧
      (importEmojiSync normalize md5 n2
          (importEmojiSync normalize md5 n1 c content).2 content).1 = .ok (md5 b) ∧
      countA (importEmojiSync normalize md5 n2
          (importEmojiSync normalize md5 n1 c content).2 content).2.store (md5 b)
        = 1 ∧
      ((EmojiCache.getItem n2
          (importEmojiSync normalize md5 n2
            (importEmojiSync normalize md5 n1 c content).2 content).2
          (md5 b)).1).isSome = true := by
  obtain ⟨h1r, ⟨item1, h1l, h1e⟩, h1nd⟩ :=
    importEmojiSync_ok normalize md5 n1 c content b hwf hn
  obtain ⟨h2r, ⟨item2, h2l, h2e⟩, h2nd⟩ :=
    importEmojiSync_ok normalize md5 n2
      (importEmojiSync normalize md5 n1 c content).2 content b h1nd hn
  exact ⟨h1r, h2r, countA_eq_one_of_lookupA h2nd h2l,
    getItem_fresh n2 _ (md5 b) item2 h2l h2e⟩

/-- C9 witness: the ingest theorem applied to the empty store, the identity
normalizer and hash, and the content `"png"` at times 0 and 5. -/
theorem C9_witness :
    ((⟨[]⟩ : EmojiCache).store.map Prod.fst).Nodup ∧
      ((fun (s : String) => (Except.ok s : Except String String)) "png"
        = Except.ok "png") ∧
      ((importEmojiSync (fun s => Except.ok s) (fun s => s) 0 ⟨[]⟩ "png").1
          = .ok "png" ∧
        (importEmojiSync (fun s => Except.ok s) (fun s => s) 5
            (importEmojiSync (fun s => Except.ok s) (fun s => s) 0 ⟨[]⟩ "png").2
            "png").1 = .ok "png" ∧
        countA (importEmojiSync (fun s => Except.ok s) (fun s => s) 5
            (importEmojiSync (fun s => Except.ok s) (fun s => s) 0 ⟨[]⟩ "png").2
            "png").2.store "png" = 1 ∧
        ((EmojiCache.getItem 5
            (importEmojiSync (fun s => Except.ok s) (fun s => s) 5
              (importEmojiSync (fun s => Except.ok s) (fun s => s) 0 ⟨[]⟩ "png").2
              "png").2 "png").1).isSome = true) :=
  ⟨List.nodup_nil, rfl,
    C9_emoji_ingest_dedup (fun s => Except.ok s) (fun s => s) ⟨[]⟩ "png" "png" 0 5
      List.nodup_nil rfl⟩

end NeDanmaku
